import Mathlib

/-!
Shallow embedding of the FastMCP task-manager server (src/main.py).

The Python store keeps tasks in an insertion-ordered dict keyed by the
decimal rendering of a monotone counter; we model the dict as a list of
tasks in insertion order (keys are never re-inserted, so dict insertion
is list append, and in-place mutation keeps the position).  `datetime`
values are modelled as natural numbers and `datetime.now()` is passed in
explicitly as a `now : Nat` argument.  `datetime.fromisoformat` is a
stdlib function, so it is threaded through as an abstract parameter
`parse : String → Option Nat` (`none` models a raised `ValueError`);
both `create_task` and `update_task` call it through `parseDue`, which
also performs the `replace('Z', '+00:00')` step of the source.
Python's stable `list.sort(key=...)` is modelled by `List.mergeSort`,
which is a stable sort with respect to the boolean comparison.
-/

namespace TaskSrv

inductive TaskStatus where
  | todo
  | in_progress
  | completed
  | cancelled
deriving DecidableEq, Repr

inductive Priority where
  | low
  | medium
  | high
  | urgent
deriving DecidableEq, Repr

/-- The value held by a task's `due_date` attribute.  `unset` is Python
`None`; `stamp t` is a parsed datetime; `emptyStr` is the raw empty
string that `update_task`'s falsy-value branch assigns verbatim to the
attribute (the only non-datetime value reachable there, since only the
empty string is a falsy `str`). -/
inductive DueDate where
  | unset
  | stamp (t : Nat)
  | emptyStr
deriving DecidableEq, Repr

structure Task where
  id : String
  title : String
  description : Option String
  status : TaskStatus
  priority : Priority
  created_at : Nat
  due_date : DueDate
  completed_at : Option Nat
  tags : List String
deriving DecidableEq, Repr

structure CreateTaskRequest where
  title : String
  description : Option String := none
  priority : Priority := Priority.medium
  due_date : Option String := none
  tags : List String := []
deriving DecidableEq, Repr

/-- A sparse patch: `none` models a field absent from
`model_dump(exclude_unset=True)`. -/
structure UpdateTaskRequest where
  title : Option String := none
  description : Option String := none
  status : Option TaskStatus := none
  priority : Option Priority := none
  due_date : Option String := none
  tags : Option (List String) := none
deriving DecidableEq, Repr

structure TaskStorage where
  tasks : List Task
  next_id : Nat
deriving DecidableEq, Repr

def TaskStorage.init : TaskStorage := { tasks := [], next_id := 1 }

/-- `datetime.fromisoformat(s.replace('Z', '+00:00'))`; the abstract
`parse` models `datetime.fromisoformat`, returning `none` on a
`ValueError`. -/
def parseDue (parse : String → Option Nat) (s : String) : Option Nat :=
  parse (s.replace "Z" "+00:00")

/-- `TaskStorage.create_task`.  The id counter is bumped before the
due-date string is examined; a parse failure (first component `none`)
leaves the task collection untouched but keeps the bumped counter. -/
def TaskStorage.create_task (parse : String → Option Nat) (now : Nat)
    (s : TaskStorage) (request : CreateTaskRequest) : Option Task × TaskStorage :=
  let task_id := toString s.next_id
  let s1 : TaskStorage := { s with next_id := s.next_id + 1 }
  let dd : Option DueDate :=
    match request.due_date with
    | some ds =>
      if ds = "" then some DueDate.unset
      else (parseDue parse ds).map DueDate.stamp
    | none => some DueDate.unset
  match dd with
  | none => (none, s1)
  | some d =>
    let task : Task :=
      { id := task_id
        title := request.title
        description := request.description
        status := TaskStatus.todo
        priority := request.priority
        created_at := now
        due_date := d
        completed_at := none
        tags := request.tags }
    (some task, { s1 with tasks := s1.tasks ++ [task] })

def TaskStorage.get_task (s : TaskStorage) (task_id : String) : Option Task :=
  s.tasks.find? (fun t => t.id == task_id)

/-- The body of `update_task`'s patch loop: compute the new field values
from the fields present in the patch.  The due-date string is parsed
when it is truthy (a nonempty string); a falsy present value (the empty
string) is assigned verbatim.  `completed_at` is stamped to `now`
exactly when the patch sets status to completed and the task's current
status is not already completed.  A parse failure (`none`) aborts the
whole update before any field is written. -/
def patchDue (parse : String → Option Nat) : Option String → Option (Option DueDate)
  | none => some none
  | some ds =>
    if ds = "" then some (some DueDate.emptyStr)
    else (parseDue parse ds).map (fun t => some (DueDate.stamp t))

def applyUpdates (parse : String → Option Nat) (now : Nat) (task : Task)
    (updates : UpdateTaskRequest) : Option Task :=
  match patchDue parse updates.due_date with
  | none => none
  | some ddv =>
    some { task with
      title := updates.title.getD task.title
      description :=
        match updates.description with
        | some d => some d
        | none => task.description
      status := updates.status.getD task.status
      priority := updates.priority.getD task.priority
      due_date := ddv.getD task.due_date
      tags := updates.tags.getD task.tags
      completed_at :=
        if updates.status = some TaskStatus.completed ∧
            task.status ≠ TaskStatus.completed
        then some now
        else task.completed_at }

inductive UpdateResult where
  | notFound
  | invalidDate
  | ok (t : Task) (s : TaskStorage)
deriving DecidableEq, Repr

def TaskStorage.update_task (parse : String → Option Nat) (now : Nat)
    (s : TaskStorage) (task_id : String) (updates : UpdateTaskRequest) :
    UpdateResult :=
  match s.get_task task_id with
  | none => UpdateResult.notFound
  | some task =>
    match applyUpdates parse now task updates with
    | none => UpdateResult.invalidDate
    | some t2 =>
      UpdateResult.ok t2
        { s with tasks := s.tasks.map (fun t => if t.id == task_id then t2 else t) }

def TaskStorage.delete_task (s : TaskStorage) (task_id : String) :
    Bool × TaskStorage :=
  if s.tasks.any (fun t => t.id == task_id) then
    (true, { s with tasks := s.tasks.filter (fun t => t.id != task_id) })
  else
    (false, s)

/-- `priority_order` of `list_tasks`. -/
def priority_order : Priority → Nat
  | Priority.urgent => 0
  | Priority.high => 1
  | Priority.medium => 2
  | Priority.low => 3

/-- The sort key comparison of `list_tasks`: lexicographic order on
`(priority_order[t.priority], t.created_at)`. -/
def taskLE (a b : Task) : Bool :=
  decide (priority_order a.priority < priority_order b.priority) ||
    (decide (priority_order a.priority = priority_order b.priority) &&
      decide (a.created_at ≤ b.created_at))

/-- The sort key comparison as a relation, for `List.insertionSort`,
which models Python's stable `list.sort(key=...)` (any two stable sorts
of the same total preorder agree). -/
def taskRel : Task → Task → Prop := fun a b => taskLE a b = true

instance : DecidableRel taskRel :=
  fun a b => inferInstanceAs (Decidable (taskLE a b = true))

/-- `TaskStorage.list_tasks`.  The status filter applies whenever a
status is supplied (an enum member is always truthy); the tag filter is
guarded by Python string truthiness, so an empty tag string applies no
filter. -/
def TaskStorage.list_tasks (s : TaskStorage) (status : Option TaskStatus)
    (tag : Option String) : List Task :=
  let tasks := s.tasks
  let tasks :=
    match status with
    | some st => tasks.filter (fun (t : Task) => t.status == st)
    | none => tasks
  let tasks :=
    match tag with
    | some tg =>
      if tg = "" then tasks
      else tasks.filter (fun (t : Task) => t.tags.contains tg)
    | none => tasks
  tasks.insertionSort taskRel

structure Stats where
  total : Nat
  by_status : List (String × Nat)
  by_priority : List (String × Nat)
  overdue : Option Nat
deriving DecidableEq, Repr

/-- `task.status.value`. -/
def statusValue : TaskStatus → String
  | TaskStatus.todo => "todo"
  | TaskStatus.in_progress => "in_progress"
  | TaskStatus.completed => "completed"
  | TaskStatus.cancelled => "cancelled"

/-- `task.priority.value`. -/
def priorityValue : Priority → String
  | Priority.low => "low"
  | Priority.medium => "medium"
  | Priority.high => "high"
  | Priority.urgent => "urgent"

/-- `d[k] = d.get(k, 0) + 1` on an insertion-ordered dict. -/
def bumpKey (m : List (String × Nat)) (k : String) : List (String × Nat) :=
  if m.any (fun p => p.1 == k) then
    m.map (fun p => if p.1 == k then (p.1, p.2 + 1) else p)
  else
    m ++ [(k, 1)]

/-- Python truthiness of the `due_date` attribute: `None` and the empty
string are falsy, a datetime is truthy. -/
def dueTruthy : DueDate → Bool
  | DueDate.unset => false
  | DueDate.stamp _ => true
  | DueDate.emptyStr => false

/-- `task.due_date < now` in the branch where `due_date` is truthy
(hence a datetime). -/
def dueBefore (now : Nat) : DueDate → Bool
  | DueDate.stamp d => decide (d < now)
  | _ => false

/-- `task.due_date and task.due_date < now and task.status != COMPLETED`. -/
def isOverdue (now : Nat) (t : Task) : Bool :=
  dueTruthy t.due_date && dueBefore now t.due_date &&
    decide (t.status ≠ TaskStatus.completed)

/-- `TaskStorage.get_stats`: the empty store returns
`{"total": 0, "by_status": {}, "by_priority": {}}` with no `overdue`
key (`overdue := none`); otherwise one pass accumulates the two count
dicts and the overdue counter. -/
def TaskStorage.get_stats (now : Nat) (s : TaskStorage) : Stats :=
  let tasks := s.tasks
  let total := tasks.length
  if total = 0 then
    { total := 0, by_status := [], by_priority := [], overdue := none }
  else
    let acc := tasks.foldl
      (fun acc t =>
        (bumpKey acc.1 (statusValue t.status),
          bumpKey acc.2.1 (priorityValue t.priority),
          if isOverdue now t then acc.2.2 + 1 else acc.2.2))
      (([] : List (String × Nat)), ([] : List (String × Nat)), (0 : Nat))
    { total := total
      by_status := acc.1
      by_priority := acc.2.1
      overdue := some acc.2.2 }

/-- Result envelope of the `list_tasks` tool: a success payload with
the task list and its count, or `{success: False, error: msg}`. -/
inductive ListResult where
  | ok (tasks : List Task) (count : Nat)
  | err (msg : String)
deriving DecidableEq, Repr

/-- `TaskStatus(status)`: look a string up among the enum values;
`none` models the raised `ValueError`. -/
def TaskStatus.fromValue (s : String) : Option TaskStatus :=
  if s = "todo" then some TaskStatus.todo
  else if s = "in_progress" then some TaskStatus.in_progress
  else if s = "completed" then some TaskStatus.completed
  else if s = "cancelled" then some TaskStatus.cancelled
  else none

/-- The `list_tasks` tool: `TaskStatus(status) if status else None`
(an empty status string is falsy, so no filter and no parse), then
`storage.list_tasks`; a `ValueError` from the enum lookup becomes the
error envelope with message `"Invalid status: " ++ status`. -/
def listTasksTool (s : TaskStorage) (status : Option String)
    (tag : Option String) : ListResult :=
  let parsed : Option (Option TaskStatus) :=
    match status with
    | none => some none
    | some st =>
      if st = "" then some none
      else
        match TaskStatus.fromValue st with
        | some v => some (some v)
        | none => none
  match parsed with
  | none => ListResult.err ("Invalid status: " ++ status.getD "")
  | some st =>
    let ts := s.list_tasks st tag
    ListResult.ok ts ts.length

/-- One caller-visible mutation of the store. -/
inductive Op where
  | create (now : Nat) (request : CreateTaskRequest)
  | update (now : Nat) (task_id : String) (updates : UpdateTaskRequest)
  | delete (task_id : String)

/-- Execute one operation; the second component is the id handed out by
a successful create. -/
def stepOp (parse : String → Option Nat) (s : TaskStorage) :
    Op → TaskStorage × Option String
  | Op.create now request =>
    match s.create_task parse now request with
    | (some t, s2) => (s2, some t.id)
    | (none, s2) => (s2, none)
  | Op.update now task_id updates =>
    match s.update_task parse now task_id updates with
    | UpdateResult.ok _ s2 => (s2, none)
    | _ => (s, none)
  | Op.delete task_id => ((s.delete_task task_id).2, none)

def execOps (parse : String → Option Nat) (s : TaskStorage) :
    List Op → TaskStorage
  | [] => s
  | op :: ops => execOps parse (stepOp parse s op).1 ops

/-- The ids assigned by the successful creates of a trace, in order. -/
def createdIds (parse : String → Option Nat) (s : TaskStorage) :
    List Op → List String
  | [] => []
  | op :: ops =>
    match stepOp parse s op with
    | (s2, some i) => i :: createdIds parse s2 ops
    | (s2, none) => createdIds parse s2 ops

/-! ### Decimal rendering of the id counter

`str(self.next_id)` is `toString : Nat → String`; the proofs about id
uniqueness need that this rendering is injective, which we prove via a
digit-evaluation function. -/

def digitVal (c : Char) : Nat := c.toNat - 48

def digitsVal (l : List Char) : Nat := l.foldl (fun a c => a * 10 + digitVal c) 0

theorem toDigitsCore_append (fuel : Nat) : ∀ (n : Nat) (ds : List Char),
    Nat.toDigitsCore 10 fuel n ds = Nat.toDigitsCore 10 fuel n [] ++ ds := by
  induction fuel with
  | zero => intro n ds; simp [Nat.toDigitsCore]
  | succ fuel ih =>
    intro n ds
    simp only [Nat.toDigitsCore]
    by_cases h : n / 10 = 0
    · simp [h]
    · simp only [h, if_false]
      rw [ih (n / 10) (Nat.digitChar (n % 10) :: ds),
        ih (n / 10) [Nat.digitChar (n % 10)]]
      simp

theorem digitVal_digitChar (k : Nat) (h : k < 10) :
    digitVal (Nat.digitChar k) = k := by
  interval_cases k <;> rfl

theorem digitsVal_toDigitsCore (fuel : Nat) : ∀ n : Nat, n < fuel →
    digitsVal (Nat.toDigitsCore 10 fuel n []) = n := by
  induction fuel with
  | zero => intro n hn; omega
  | succ fuel ih =>
    intro n hn
    simp only [Nat.toDigitsCore]
    by_cases h : n / 10 = 0
    · have h10 : n < 10 := by omega
      simp only [h, if_pos]
      simp [digitsVal, digitVal_digitChar (n % 10) (Nat.mod_lt _ (by omega))]
      omega
    · simp only [h, if_false]
      rw [toDigitsCore_append]
      have hlt : n / 10 < fuel := by
        have h1 : n / 10 < n := Nat.div_lt_self (by omega) (by omega)
        omega
      simp only [digitsVal, List.foldl_append]
      have hv := ih (n / 10) hlt
      simp only [digitsVal] at hv
      rw [hv]
      simp [digitVal_digitChar (n % 10) (Nat.mod_lt _ (by omega))]
      omega

theorem natToString_injective : ∀ m n : Nat, toString m = toString n → m = n := by
  intro m n h
  have hm : Nat.repr m = Nat.repr n := h
  simp only [Nat.repr, Nat.toDigits, List.asString] at hm
  have hd : Nat.toDigitsCore 10 (m + 1) m [] = Nat.toDigitsCore 10 (n + 1) n [] := by
    exact congrArg String.data hm
  have := congrArg digitsVal hd
  rwa [digitsVal_toDigitsCore (m + 1) m (by omega),
    digitsVal_toDigitsCore (n + 1) n (by omega)] at this

/-! ### The sort comparison is a total preorder -/

theorem taskLE_trans : ∀ a b c : Task, taskLE a b → taskLE b c → taskLE a c := by
  intro a b c hab hbc
  simp only [taskLE, Bool.or_eq_true, Bool.and_eq_true, decide_eq_true_eq] at hab hbc ⊢
  omega

theorem taskLE_total : ∀ a b : Task, taskLE a b || taskLE b a := by
  intro a b
  simp only [taskLE, Bool.or_eq_true, Bool.and_eq_true, decide_eq_true_eq]
  omega

instance : IsTrans Task taskRel := ⟨taskLE_trans⟩

instance : IsTotal Task taskRel :=
  ⟨fun a b => Bool.or_eq_true_iff.mp (taskLE_total a b)⟩

/-! ### Concrete stores used as examples and witnesses -/

/-- A concrete stand-in for `datetime.fromisoformat` that rejects every
string. -/
def noParse : String → Option Nat := fun _ => none

def exOpsC1 : List Op :=
  [Op.create 10 { title := "m" },
    Op.create 11 { title := "u", priority := Priority.urgent },
    Op.create 12 { title := "l", priority := Priority.low }]

def exTaskM : Task :=
  { id := "1", title := "m", description := none, status := TaskStatus.todo
    priority := Priority.medium, created_at := 10, due_date := DueDate.unset
    completed_at := none, tags := [] }

def exTaskU : Task :=
  { id := "2", title := "u", description := none, status := TaskStatus.todo
    priority := Priority.urgent, created_at := 11, due_date := DueDate.unset
    completed_at := none, tags := [] }

def exTaskL : Task :=
  { id := "3", title := "l", description := none, status := TaskStatus.todo
    priority := Priority.low, created_at := 12, due_date := DueDate.unset
    completed_at := none, tags := [] }

def exOpsTie : List Op :=
  [Op.create 5 { title := "x" }, Op.create 5 { title := "y" }]

def exTaskX : Task :=
  { id := "1", title := "x", description := none, status := TaskStatus.todo
    priority := Priority.medium, created_at := 5, due_date := DueDate.unset
    completed_at := none, tags := [] }

def exTaskY : Task :=
  { id := "2", title := "y", description := none, status := TaskStatus.todo
    priority := Priority.medium, created_at := 5, due_date := DueDate.unset
    completed_at := none, tags := [] }

/-- C1: `list` with no filters returns all stored tasks, sorted by
(priority rank ascending, created_at ascending), the order is realised
by a stable sort (tasks with tied keys keep their insertion order), and
tasks created in order [medium, urgent, low] come back as
[urgent, medium, low]. -/
theorem C1_list_unfiltered_sorted (s : TaskStorage) :
    (s.list_tasks none none).Perm s.tasks ∧
    List.Pairwise (fun a b => taskLE a b = true) (s.list_tasks none none) ∧
    (∀ a b : Task, taskLE a b = true → taskLE b a = true →
      List.Sublist [a, b] s.tasks →
      List.Sublist [a, b] (s.list_tasks none none)) ∧
    (execOps noParse TaskStorage.init exOpsC1).list_tasks none none =
      [exTaskU, exTaskM, exTaskL] := by
  refine ⟨?_, ?_, ?_, ?_⟩
  · exact List.perm_insertionSort taskRel s.tasks
  · exact List.sorted_insertionSort taskRel s.tasks
  · intro a b hab _hba hsub
    exact List.pair_sublist_insertionSort hab hsub
  · decide

/-- Witness for C1 at a concrete store: two tasks with identical sort
keys created in order `x`, `y` stay in that order in the sorted
listing. -/
theorem C1_list_unfiltered_sorted_witness :
    List.Sublist [exTaskX, exTaskY]
      ((execOps noParse TaskStorage.init exOpsTie).list_tasks none none) :=
  (C1_list_unfiltered_sorted (execOps noParse TaskStorage.init exOpsTie)).2.2.1
    exTaskX exTaskY (by decide) (by decide) (List.Sublist.refl _)

/-! ### Characterizations of update -/

theorem applyUpdates_some_iff (parse : String → Option Nat) (now : Nat)
    (task : Task) (u : UpdateTaskRequest) (t2 : Task) :
    applyUpdates parse now task u = some t2 ↔
      ∃ ddv, patchDue parse u.due_date = some ddv ∧
        t2 = { task with
          title := u.title.getD task.title
          description :=
            (match u.description with
              | some d => some d
              | none => task.description)
          status := u.status.getD task.status
          priority := u.priority.getD task.priority
          due_date := ddv.getD task.due_date
          tags := u.tags.getD task.tags
          completed_at :=
            if u.status = some TaskStatus.completed ∧
                task.status ≠ TaskStatus.completed
            then some now
            else task.completed_at } := by
  unfold applyUpdates
  rcases hp : patchDue parse u.due_date with _ | ddv
  · simp
  · simp only [Option.some.injEq]
    constructor
    · intro h
      exact ⟨ddv, rfl, h.symm⟩
    · rintro ⟨ddv2, hv, ht⟩
      obtain rfl : ddv = ddv2 := hv
      exact ht.symm

theorem update_task_ok (parse : String → Option Nat) (now : Nat)
    (s : TaskStorage) (task_id : String) (u : UpdateTaskRequest)
    (t2 : Task) (s2 : TaskStorage)
    (h : s.update_task parse now task_id u = UpdateResult.ok t2 s2) :
    ∃ task, s.get_task task_id = some task ∧
      applyUpdates parse now task u = some t2 ∧
      s2 = { s with
        tasks := s.tasks.map (fun t => if t.id == task_id then t2 else t) } := by
  simp only [TaskStorage.update_task] at h
  rcases hg : s.get_task task_id with _ | task
  · simp [hg] at h
  · simp only [hg] at h
    rcases ha : applyUpdates parse now task u with _ | t3
    · simp [ha] at h
    · simp only [ha] at h
      injection h with h1 h2
      subst h1
      exact ⟨task, rfl, ha, h2.symm⟩

/-- C3: an update that moves a non-completed task to completed stamps
`completed_at := now` in that same update; an update whose patch does
not set status leaves both status and `completed_at` unchanged; and an
update that sets status to completed on an already-completed task does
not re-stamp `completed_at`. -/
theorem C3_completed_stamping :
    (∀ (parse : String → Option Nat) (now : Nat) (s : TaskStorage)
        (task_id : String) (u : UpdateTaskRequest) (task t2 : Task)
        (s2 : TaskStorage),
      s.get_task task_id = some task →
      task.status ≠ TaskStatus.completed →
      u.status = some TaskStatus.completed →
      s.update_task parse now task_id u = UpdateResult.ok t2 s2 →
      t2.status = TaskStatus.completed ∧ t2.completed_at = some now) ∧
    (∀ (parse : String → Option Nat) (now : Nat) (s : TaskStorage)
        (task_id : String) (u : UpdateTaskRequest) (task t2 : Task)
        (s2 : TaskStorage),
      s.get_task task_id = some task →
      u.status = none →
      s.update_task parse now task_id u = UpdateResult.ok t2 s2 →
      t2.status = task.status ∧ t2.completed_at = task.completed_at) ∧
    (∀ (parse : String → Option Nat) (now : Nat) (s : TaskStorage)
        (task_id : String) (u : UpdateTaskRequest) (task t2 : Task)
        (s2 : TaskStorage),
      s.get_task task_id = some task →
      task.status = TaskStatus.completed →
      u.status = some TaskStatus.completed →
      s.update_task parse now task_id u = UpdateResult.ok t2 s2 →
      t2.completed_at = task.completed_at) := by
  refine ⟨?_, ?_, ?_⟩
  · intro parse now s task_id u task t2 s2 hg hst hus hok
    obtain ⟨task3, hg3, ha, _⟩ := update_task_ok parse now s task_id u t2 s2 hok
    rw [hg3] at hg
    injection hg with e
    subst e
    obtain ⟨ddv, _, rfl⟩ := (applyUpdates_some_iff parse now task3 u t2).mp ha
    constructor
    · simp [hus]
    · simp [hus, hst]
  · intro parse now s task_id u task t2 s2 hg hus hok
    obtain ⟨task3, hg3, ha, _⟩ := update_task_ok parse now s task_id u t2 s2 hok
    rw [hg3] at hg
    injection hg with e
    subst e
    obtain ⟨ddv, _, rfl⟩ := (applyUpdates_some_iff parse now task3 u t2).mp ha
    constructor
    · simp [hus]
    · simp [hus]
  · intro parse now s task_id u task t2 s2 hg hst hus hok
    obtain ⟨task3, hg3, ha, _⟩ := update_task_ok parse now s task_id u t2 s2 hok
    rw [hg3] at hg
    injection hg with e
    subst e
    obtain ⟨ddv, _, rfl⟩ := (applyUpdates_some_iff parse now task3 u t2).mp ha
    simp [hus, hst]

def exStoreC3 : TaskStorage :=
  { tasks := [{ id := "1", title := "a", description := none
                status := TaskStatus.todo, priority := Priority.medium
                created_at := 0, due_date := DueDate.unset
                completed_at := none, tags := [] }]
    next_id := 2 }

def exTaskC3pre : Task :=
  { id := "1", title := "a", description := none, status := TaskStatus.todo
    priority := Priority.medium, created_at := 0, due_date := DueDate.unset
    completed_at := none, tags := [] }

def exTaskC3post : Task :=
  { id := "1", title := "a", description := none
    status := TaskStatus.completed, priority := Priority.medium
    created_at := 0, due_date := DueDate.unset, completed_at := some 7
    tags := [] }

def exStoreC3post : TaskStorage := { tasks := [exTaskC3post], next_id := 2 }

/-- Witness for C3: completing the single todo task of a concrete store
at time 7 yields status completed and `completed_at = some 7`. -/
theorem C3_completed_stamping_witness :
    exTaskC3post.status = TaskStatus.completed ∧
      exTaskC3post.completed_at = some 7 :=
  C3_completed_stamping.1 noParse 7 exStoreC3 "1"
    { status := some TaskStatus.completed } exTaskC3pre exTaskC3post
    exStoreC3post (by decide) (by decide) rfl (by decide)

/-! ### Characterizations of create, delete and stepOp -/

theorem create_task_some (parse : String → Option Nat) (now : Nat)
    (s : TaskStorage) (request : CreateTaskRequest) (t : Task)
    (s2 : TaskStorage) (h : s.create_task parse now request = (some t, s2)) :
    t.id = toString s.next_id ∧ t.status = TaskStatus.todo ∧
      t.completed_at = none ∧ t.created_at = now ∧
      s2 = { s with tasks := s.tasks ++ [t], next_id := s.next_id + 1 } := by
  simp only [TaskStorage.create_task] at h
  rcases hd : request.due_date with _ | ds
  · simp only [hd] at h
    injection h with h1 h2
    injection h1 with h1
    subst h1
    exact ⟨rfl, rfl, rfl, rfl, h2.symm⟩
  · simp only [hd] at h
    by_cases hds : ds = ""
    · simp only [hds, if_pos rfl] at h
      injection h with h1 h2
      injection h1 with h1
      subst h1
      exact ⟨rfl, rfl, rfl, rfl, h2.symm⟩
    · simp only [if_neg hds] at h
      rcases hp : parseDue parse ds with _ | d
      · rw [hp] at h
        simp at h
      · rw [hp] at h
        injection h with h1 h2
        injection h1 with h1
        subst h1
        exact ⟨rfl, rfl, rfl, rfl, h2.symm⟩

theorem create_task_none (parse : String → Option Nat) (now : Nat)
    (s : TaskStorage) (request : CreateTaskRequest) (s2 : TaskStorage)
    (h : s.create_task parse now request = (none, s2)) :
    s2 = { s with next_id := s.next_id + 1 } := by
  simp only [TaskStorage.create_task] at h
  rcases hd : request.due_date with _ | ds
  · simp only [hd] at h
    simp at h
  · simp only [hd] at h
    by_cases hds : ds = ""
    · simp only [hds, if_pos rfl] at h
      simp at h
    · simp only [if_neg hds] at h
      rcases hp : parseDue parse ds with _ | d
      · rw [hp] at h
        injection h with _ h2
        exact h2.symm
      · rw [hp] at h
        simp at h

theorem delete_task_tasks (s : TaskStorage) (task_id : String) :
    (s.delete_task task_id).2.tasks.Sublist s.tasks ∧
      (s.delete_task task_id).2.next_id = s.next_id := by
  unfold TaskStorage.delete_task
  split
  · exact ⟨List.filter_sublist s.tasks, rfl⟩
  · exact ⟨List.Sublist.refl s.tasks, rfl⟩

/-! ### Invariant: a completed task carries a completion stamp -/

def CompletedInv (s : TaskStorage) : Prop :=
  ∀ t ∈ s.tasks, t.status = TaskStatus.completed → t.completed_at ≠ none

theorem applyUpdates_completed (parse : String → Option Nat) (now : Nat)
    (task t2 : Task) (u : UpdateTaskRequest)
    (hinv : task.status = TaskStatus.completed → task.completed_at ≠ none)
    (h : applyUpdates parse now task u = some t2) :
    t2.status = TaskStatus.completed → t2.completed_at ≠ none := by
  obtain ⟨ddv, _, rfl⟩ := (applyUpdates_some_iff parse now task u t2).mp h
  intro hst
  by_cases hc : u.status = some TaskStatus.completed ∧
      task.status ≠ TaskStatus.completed
  · simp [if_pos hc]
  · rw [if_neg hc]
    rcases hu : u.status with _ | v
    · rw [hu] at hst
      simp only [Option.getD_none] at hst
      exact hinv hst
    · rw [hu] at hst
      simp only [Option.getD_some] at hst
      subst hst
      rw [hu] at hc
      push_neg at hc
      exact hinv (hc rfl)

theorem stepOp_completedInv (parse : String → Option Nat) (s : TaskStorage)
    (op : Op) (hinv : CompletedInv s) : CompletedInv (stepOp parse s op).1 := by
  cases op with
  | create now request =>
    rcases hc : s.create_task parse now request with ⟨ot, s3⟩
    cases ot with
    | none =>
      have h3 := create_task_none parse now s request s3 hc
      simp only [stepOp, hc]
      subst h3
      intro t ht
      exact hinv t ht
    | some tnew =>
      obtain ⟨_, hstatus, _, _, h3⟩ :=
        create_task_some parse now s request tnew s3 hc
      simp only [stepOp, hc]
      subst h3
      intro t ht
      rcases List.mem_append.mp ht with hm | hm
      · exact hinv t hm
      · simp only [List.mem_singleton] at hm
        subst hm
        intro hst
        rw [hstatus] at hst
        cases hst
  | update now task_id u =>
    rcases hu : s.update_task parse now task_id u with _ | _ | ⟨t2, s2⟩
    · simp only [stepOp, hu]
      exact hinv
    · simp only [stepOp, hu]
      exact hinv
    · simp only [stepOp, hu]
      obtain ⟨task, hg, ha, rfl⟩ := update_task_ok parse now s task_id u t2 s2 hu
      intro t ht
      simp only [List.mem_map] at ht
      obtain ⟨orig, horig, rfl⟩ := ht
      by_cases hid : (orig.id == task_id) = true
      · simp only [if_pos hid]
        have htask := List.mem_of_find?_eq_some hg
        exact applyUpdates_completed parse now task t2 u (hinv task htask) ha
      · simp only [if_neg hid]
        exact hinv orig horig
  | delete task_id =>
    simp only [stepOp]
    intro t ht
    exact hinv t ((delete_task_tasks s task_id).1.subset ht)

theorem execOps_completedInv (parse : String → Option Nat) :
    ∀ (ops : List Op) (s : TaskStorage),
      CompletedInv s → CompletedInv (execOps parse s ops)
  | [], _, h => h
  | op :: ops, s, h =>
    execOps_completedInv parse ops _ (stepOp_completedInv parse s op h)

def c2ops : List Op :=
  [Op.create 0 { title := "a" },
    Op.update 1 "1" { status := some TaskStatus.completed },
    Op.update 2 "1" { status := some TaskStatus.todo }]

/-- C2 counterexample: after creating a task, completing it at time 1
and then updating its status back to todo, the stored task has status
todo while `completed_at` is still `some 1`, so "completed_at is set if
and only if status is completed" fails in a reachable state. -/
theorem C2_counterexample :
    ((execOps noParse TaskStorage.init c2ops).get_task "1").map
        (fun t => (t.status, t.completed_at)) =
      some (TaskStatus.todo, some 1) := by decide

/-- C2 (amended): in every reachable store state, a task whose status
is completed has `completed_at` set; the converse direction of the
claimed equivalence is refuted by `C2_counterexample` (updating a
completed task's status away from completed leaves `completed_at`
set). -/
theorem C2_completed_implies_stamped (parse : String → Option Nat)
    (ops : List Op) :
    ∀ t ∈ (execOps parse TaskStorage.init ops).tasks,
      t.status = TaskStatus.completed → t.completed_at ≠ none :=
  execOps_completedInv parse ops TaskStorage.init (by intro t ht; cases ht)

def c2wOps : List Op :=
  [Op.create 0 { title := "a" },
    Op.update 1 "1" { status := some TaskStatus.completed }]

def c2wTask : Task :=
  { id := "1", title := "a", description := none
    status := TaskStatus.completed, priority := Priority.medium
    created_at := 0, due_date := DueDate.unset, completed_at := some 1
    tags := [] }

/-- Witness for C2 (amended) at a concrete trace. -/
theorem C2_completed_implies_stamped_witness : c2wTask.completed_at ≠ none :=
  C2_completed_implies_stamped noParse c2wOps c2wTask (by decide) (by decide)

/-! ### Id assignment: monotone counter, never reused -/

theorem stepOp_next_id_le (parse : String → Option Nat) (s : TaskStorage)
    (op : Op) : s.next_id ≤ ((stepOp parse s op).1).next_id := by
  cases op with
  | create now request =>
    rcases hc : s.create_task parse now request with ⟨ot, s3⟩
    cases ot with
    | none =>
      have h3 := create_task_none parse now s request s3 hc
      simp only [stepOp, hc, h3]
      exact Nat.le_succ _
    | some t =>
      obtain ⟨_, _, _, _, h3⟩ := create_task_some parse now s request t s3 hc
      simp only [stepOp, hc, h3]
      exact Nat.le_succ _
  | update now task_id u =>
    rcases hu : s.update_task parse now task_id u with _ | _ | ⟨t2, s2⟩
    · simp only [stepOp, hu]
      exact Nat.le_refl _
    · simp only [stepOp, hu]
      exact Nat.le_refl _
    · simp only [stepOp, hu]
      obtain ⟨_, _, _, rfl⟩ := update_task_ok parse now s task_id u t2 s2 hu
      exact Nat.le_refl _
  | delete task_id =>
    simp only [stepOp]
    rw [(delete_task_tasks s task_id).2]

theorem stepOp_created (parse : String → Option Nat) (s : TaskStorage)
    (op : Op) (s2 : TaskStorage) (i : String)
    (h : stepOp parse s op = (s2, some i)) :
    i = toString s.next_id ∧ s2.next_id = s.next_id + 1 := by
  cases op with
  | create now request =>
    rcases hc : s.create_task parse now request with ⟨ot, s3⟩
    cases ot with
    | none =>
      simp only [stepOp, hc] at h
      injection h with _ h2
      cases h2
    | some t =>
      obtain ⟨hid, _, _, _, h3⟩ := create_task_some parse now s request t s3 hc
      simp only [stepOp, hc] at h
      injection h with h1 h2
      injection h2 with h2
      subst h1
      constructor
      · rw [← h2]
        exact hid
      · rw [h3]
  | update now task_id u =>
    rcases hu : s.update_task parse now task_id u with _ | _ | ⟨t2, s3⟩ <;>
      simp only [stepOp, hu] at h <;>
      injection h with _ h2 <;> cases h2
  | delete task_id =>
    simp only [stepOp] at h
    injection h with _ h2
    cases h2

theorem createdIds_mono (parse : String → Option Nat) :
    ∀ (ops : List Op) (s : TaskStorage),
      ∃ ks : List Nat,
        createdIds parse s ops = ks.map (fun k => toString k) ∧
        List.Chain' (fun a b => a < b) ks ∧ ∀ k ∈ ks, s.next_id ≤ k := by
  intro ops
  induction ops with
  | nil =>
    intro s
    exact ⟨[], rfl, List.chain'_nil, by simp⟩
  | cons op ops ih =>
    intro s
    rcases hstep : stepOp parse s op with ⟨s2, oi⟩
    cases oi with
    | none =>
      obtain ⟨ks, hmap, hch, hlb⟩ := ih s2
      refine ⟨ks, ?_, hch, ?_⟩
      · simp only [createdIds, hstep]
        exact hmap
      · intro k hk
        have hle := stepOp_next_id_le parse s op
        rw [hstep] at hle
        exact le_trans hle (hlb k hk)
    | some i =>
      obtain ⟨hi, hnid⟩ := stepOp_created parse s op s2 i hstep
      obtain ⟨ks, hmap, hch, hlb⟩ := ih s2
      refine ⟨s.next_id :: ks, ?_, ?_, ?_⟩
      · simp only [createdIds, hstep, hmap, List.map_cons, hi]
      · rw [List.chain'_cons']
        refine ⟨?_, hch⟩
        intro y hy
        have h1 : s2.next_id ≤ y := hlb y (List.mem_of_mem_head? hy)
        omega
      · intro k hk
        rcases List.mem_cons.mp hk with rfl | hk
        · exact Nat.le_refl _
        · have := hlb k hk
          omega

/-- C6: along any operation sequence (creates interleaved with updates
and deletes), the ids handed out by the successful creates are the
decimal renderings of a strictly increasing list of naturals; in
particular they are pairwise distinct, and an id freed by a deletion is
never assigned again. -/
theorem C6_create_ids (parse : String → Option Nat) (ops : List Op) :
    ∃ ks : List Nat,
      createdIds parse TaskStorage.init ops = ks.map (fun k => toString k) ∧
      List.Pairwise (fun a b => a < b) ks ∧
      (createdIds parse TaskStorage.init ops).Nodup := by
  obtain ⟨ks, hmap, hch, _⟩ := createdIds_mono parse ops TaskStorage.init
  have hpw : List.Pairwise (fun a b => a < b) ks :=
    List.chain'_iff_pairwise.mp hch
  refine ⟨ks, hmap, hpw, ?_⟩
  rw [hmap]
  have hnd : ks.Nodup := hpw.imp (fun h => Nat.ne_of_lt h)
  exact hnd.map (fun m n h => natToString_injective m n h)

/-! ### Stats -/

theorem statsFold_overdue (now : Nat) :
    ∀ (l : List Task) (bs bp : List (String × Nat)) (od : Nat),
      (l.foldl
        (fun acc t =>
          (bumpKey acc.1 (statusValue t.status),
            bumpKey acc.2.1 (priorityValue t.priority),
            if isOverdue now t then acc.2.2 + 1 else acc.2.2))
        (bs, bp, od)).2.2 = od + l.countP (isOverdue now) := by
  intro l
  induction l with
  | nil =>
    intro bs bp od
    simp
  | cons t l ih =>
    intro bs bp od
    simp only [List.foldl_cons, List.countP_cons]
    rw [ih]
    by_cases h : isOverdue now t
    · simp [h]
      omega
    · simp [h]

/-- C4: `get_stats` reports, on a nonempty store, an overdue count
equal to the number of stored tasks whose `due_date` holds a timestamp
strictly before the current time and whose status is not completed; on
an empty store it returns total 0, empty status/priority mappings, and
no overdue entry. -/
theorem C4_stats_overdue (now : Nat) (s : TaskStorage) :
    (s.get_stats now).total = s.tasks.length ∧
    (s.tasks = [] →
      s.get_stats now =
        { total := 0, by_status := [], by_priority := [], overdue := none }) ∧
    (s.tasks ≠ [] →
      (s.get_stats now).overdue = some (s.tasks.countP (isOverdue now))) ∧
    (∀ t : Task, isOverdue now t = true ↔
      ((∃ d, t.due_date = DueDate.stamp d ∧ d < now) ∧
        t.status ≠ TaskStatus.completed)) := by
  refine ⟨?_, ?_, ?_, ?_⟩
  · unfold TaskStorage.get_stats
    by_cases h : s.tasks.length = 0
    · simp [h]
    · simp [h]
  · intro h
    unfold TaskStorage.get_stats
    simp [h]
  · intro h
    unfold TaskStorage.get_stats
    have hl : ¬s.tasks.length = 0 := by
      simpa [List.length_eq_zero] using h
    simp only [if_neg hl]
    rw [statsFold_overdue]
    simp
  · intro t
    rcases hd : t.due_date with _ | d | _
    · simp [isOverdue, dueTruthy, hd]
    · simp [isOverdue, dueTruthy, dueBefore, hd, and_assoc]
    · simp [isOverdue, dueTruthy, hd]

def c4store : TaskStorage :=
  { tasks := [{ id := "1", title := "a", description := none
                status := TaskStatus.todo, priority := Priority.medium
                created_at := 0, due_date := DueDate.stamp 3
                completed_at := none, tags := [] }]
    next_id := 2 }

/-- Witness for C4: a store holding one non-completed task due at time
3 reports its overdue count through the counted predicate at time 5. -/
theorem C4_stats_overdue_witness :
    (c4store.get_stats 5).overdue = some (c4store.tasks.countP (isOverdue 5)) :=
  (C4_stats_overdue 5 c4store).2.2.1 (by decide)

/-! ### List filtering -/

def c5task : Task :=
  { id := "1", title := "a", description := none, status := TaskStatus.todo
    priority := Priority.medium, created_at := 0, due_date := DueDate.unset
    completed_at := none, tags := ["a"] }

def c5store : TaskStorage := { tasks := [c5task], next_id := 2 }

/-- C5 counterexample: supplying the empty string as the tag filter
returns a task whose tags do not contain the empty string — the falsy
tag value disables the filter instead of being used for the membership
test. -/
theorem C5_counterexample :
    c5store.list_tasks none (some "") = [c5task] ∧
      c5task.tags.contains "" = false :=
  ⟨by decide, by decide⟩

/-- C5 (amended): for a nonempty tag string, `list` with both filters
returns exactly the tasks matching both (status equality AND tag
membership); each filter alone applies only its own condition; an empty
tag string is treated as if no tag filter were supplied. -/
theorem C5_filters (s : TaskStorage) (st : TaskStatus) (tg : String)
    (htg : tg ≠ "") :
    (s.list_tasks (some st) (some tg)).Perm
        (s.tasks.filter (fun t => t.status == st && t.tags.contains tg)) ∧
    (s.list_tasks (some st) none).Perm
        (s.tasks.filter (fun t => t.status == st)) ∧
    (s.list_tasks none (some tg)).Perm
        (s.tasks.filter (fun t => t.tags.contains tg)) ∧
    (∀ st2 : Option TaskStatus,
      s.list_tasks st2 (some "") = s.list_tasks st2 none) := by
  refine ⟨?_, ?_, ?_, ?_⟩
  · unfold TaskStorage.list_tasks
    simp only [if_neg htg]
    refine (List.perm_insertionSort taskRel _).trans ?_
    rw [List.filter_filter]
    exact (List.filter_congr (fun a _ => Bool.and_comm _ _)).symm ▸ List.Perm.refl _
  · unfold TaskStorage.list_tasks
    exact List.perm_insertionSort taskRel _
  · unfold TaskStorage.list_tasks
    simp only [if_neg htg]
    exact List.perm_insertionSort taskRel _
  · intro st2
    unfold TaskStorage.list_tasks
    cases st2 <;> simp

/-- Witness for C5 (amended) at a concrete store and the tag "a". -/
theorem C5_filters_witness :
    (c5store.list_tasks (some TaskStatus.todo) (some "a")).Perm
      (c5store.tasks.filter
        (fun t => t.status == TaskStatus.todo && t.tags.contains "a")) :=
  (C5_filters c5store TaskStatus.todo "a" (by decide)).1

/-! ### Due-date parsing parity between create and update -/

def c7task : Task :=
  { id := "1", title := "a", description := none, status := TaskStatus.todo
    priority := Priority.medium, created_at := 0, due_date := DueDate.unset
    completed_at := none, tags := [] }

def c7store : TaskStorage := { tasks := [c7task], next_id := 2 }

/-- C7 counterexample: with the empty string as the due_date input,
create leaves the task's due_date unset (`None`) while update assigns
the raw empty string to the attribute verbatim; the two operations thus
produce different resulting due_date values for the same input string
(neither operation fails and neither parses the string). -/
theorem C7_counterexample :
    ((TaskStorage.init.create_task noParse 0
        { title := "a", due_date := some "" }).1).map (fun t => t.due_date) =
      some DueDate.unset ∧
    (match c7store.update_task noParse 1 "1" { due_date := some "" } with
      | UpdateResult.ok t _ => some t.due_date
      | _ => none) = some DueDate.emptyStr ∧
    DueDate.unset ≠ DueDate.emptyStr :=
  ⟨by decide, by decide, by decide⟩

theorem patchDue_nonempty (parse : String → Option Nat) (ds : String)
    (hne : ds ≠ "") :
    patchDue parse (some ds) =
      (parseDue parse ds).map (fun t => some (DueDate.stamp t)) := by
  simp [patchDue, hne]

/-- C7 (amended): for every nonempty due_date string, an update parses
it exactly as create does — through the same Z-replacement and ISO
parse — so the same strings yield the same stamped timestamp and the
same strings make either operation fail with a validation error.  (For
the empty string, create leaves due_date unset while update stores the
raw string; see the counterexample.) -/
theorem C7_due_date_parity (parse : String → Option Nat) (now : Nat)
    (s : TaskStorage) (task_id : String) (u : UpdateTaskRequest)
    (ds : String) (hds : u.due_date = some ds) (hne : ds ≠ "") :
    (∀ t2 s2, s.update_task parse now task_id u = UpdateResult.ok t2 s2 →
      ∃ d, parseDue parse ds = some d ∧ t2.due_date = DueDate.stamp d) ∧
    ((∃ task, s.get_task task_id = some task) → parseDue parse ds = none →
      s.update_task parse now task_id u = UpdateResult.invalidDate) ∧
    (∀ request : CreateTaskRequest, request.due_date = some ds →
      ((parseDue parse ds = none → (s.create_task parse now request).1 = none) ∧
        (∀ d, parseDue parse ds = some d →
          ∃ t, (s.create_task parse now request).1 = some t ∧
            t.due_date = DueDate.stamp d))) := by
  refine ⟨?_, ?_, ?_⟩
  · intro t2 s2 hok
    obtain ⟨task, _, ha, _⟩ := update_task_ok parse now s task_id u t2 s2 hok
    obtain ⟨ddv, hdv, rfl⟩ := (applyUpdates_some_iff parse now task u t2).mp ha
    rw [hds, patchDue_nonempty parse ds hne] at hdv
    rcases hp : parseDue parse ds with _ | d
    · rw [hp] at hdv
      cases hdv
    · rw [hp] at hdv
      injection hdv with hdv
      exact ⟨d, rfl, by simp [← hdv]⟩
  · rintro ⟨task, hg⟩ hp
    have hnone : applyUpdates parse now task u = none := by
      unfold applyUpdates
      rw [hds, patchDue_nonempty parse ds hne, hp]
      rfl
    simp only [TaskStorage.update_task, hg, hnone]
  · intro request hreq
    constructor
    · intro hp
      simp only [TaskStorage.create_task, hreq, if_neg hne, hp]
      rfl
    · intro d hp
      simp only [TaskStorage.create_task, hreq, if_neg hne, hp]
      exact ⟨_, rfl, rfl⟩

/-- Witness for C7 (amended): updating an existing task with an
unparseable nonempty due_date string fails with the validation error. -/
theorem C7_due_date_parity_witness :
    c7store.update_task noParse 5 "1" { due_date := some "x" } =
      UpdateResult.invalidDate :=
  (C7_due_date_parity noParse 5 c7store "1" { due_date := some "x" } "x" rfl
    (by decide)).2.1 ⟨c7task, by decide⟩ (by decide)

/-! ### Invariant: stored ids are distinct counter renderings -/

def IdsOk (s : TaskStorage) : Prop :=
  (s.tasks.map (fun t => t.id)).Nodup ∧
    ∀ t ∈ s.tasks, ∃ k, t.id = toString k ∧ k < s.next_id

theorem get_task_some (s : TaskStorage) (task_id : String) (task : Task)
    (h : s.get_task task_id = some task) :
    (task.id == task_id) = true ∧ task ∈ s.tasks := by
  unfold TaskStorage.get_task at h
  have h1 := List.find?_some h
  have h2 := List.mem_of_find?_eq_some h
  exact ⟨h1, h2⟩

theorem applyUpdates_id (parse : String → Option Nat) (now : Nat)
    (task t2 : Task) (u : UpdateTaskRequest)
    (h : applyUpdates parse now task u = some t2) : t2.id = task.id := by
  obtain ⟨ddv, _, rfl⟩ := (applyUpdates_some_iff parse now task u t2).mp h
  rfl

theorem stepOp_idsOk (parse : String → Option Nat) (s : TaskStorage)
    (op : Op) (hids : IdsOk s) : IdsOk (stepOp parse s op).1 := by
  obtain ⟨hnd, hbound⟩ := hids
  cases op with
  | create now request =>
    rcases hc : s.create_task parse now request with ⟨ot, s3⟩
    cases ot with
    | none =>
      have h3 := create_task_none parse now s request s3 hc
      simp only [stepOp, hc]
      subst h3
      refine ⟨hnd, ?_⟩
      intro t ht
      obtain ⟨k, hk1, hk2⟩ := hbound t ht
      exact ⟨k, hk1, Nat.lt_succ_of_lt hk2⟩
    | some tnew =>
      obtain ⟨hid, _, _, _, h3⟩ := create_task_some parse now s request tnew s3 hc
      simp only [stepOp, hc]
      subst h3
      constructor
      · rw [List.map_append]
        refine List.nodup_append.mpr ⟨hnd, List.nodup_singleton _, ?_⟩
        intro x hx hx2
        simp only [List.map_cons, List.map_nil, List.mem_singleton] at hx2
        subst hx2
        simp only [List.mem_map] at hx
        obtain ⟨t, ht, hteq⟩ := hx
        obtain ⟨k, hk1, hk2⟩ := hbound t ht
        rw [hid, hk1] at hteq
        have := natToString_injective k s.next_id hteq
        omega
      · intro t ht
        rcases List.mem_append.mp ht with hm | hm
        · obtain ⟨k, hk1, hk2⟩ := hbound t hm
          exact ⟨k, hk1, Nat.lt_succ_of_lt hk2⟩
        · simp only [List.mem_singleton] at hm
          subst hm
          exact ⟨s.next_id, hid, Nat.lt_succ_self _⟩
  | update now task_id u =>
    rcases hu : s.update_task parse now task_id u with _ | _ | ⟨t2, s2⟩
    · simp only [stepOp, hu]
      exact ⟨hnd, hbound⟩
    · simp only [stepOp, hu]
      exact ⟨hnd, hbound⟩
    · simp only [stepOp, hu]
      obtain ⟨task, hg, ha, rfl⟩ := update_task_ok parse now s task_id u t2 s2 hu
      have htid : t2.id = task.id := applyUpdates_id parse now task t2 u ha
      have hfid : (task.id == task_id) = true :=
        (get_task_some s task_id task hg).1
      have hmapid :
          (s.tasks.map (fun t => if t.id == task_id then t2 else t)).map
              (fun t => t.id) =
            s.tasks.map (fun t => t.id) := by
        rw [List.map_map]
        apply List.map_congr_left
        intro t ht
        by_cases hcase : (t.id == task_id) = true
        · simp only [Function.comp, hcase, if_pos]
          rw [htid]
          rw [eq_of_beq hfid, eq_of_beq hcase]
        · simp only [Function.comp, hcase]
          rw [if_neg (by simp [hcase])]
      constructor
      · rw [hmapid]
        exact hnd
      · intro t ht
        simp only [List.mem_map] at ht
        obtain ⟨orig, horig, rfl⟩ := ht
        by_cases hcase : (orig.id == task_id) = true
        · simp only [if_pos hcase]
          obtain ⟨k, hk1, hk2⟩ := hbound task (List.mem_of_find?_eq_some hg)
          exact ⟨k, by rw [htid, hk1], hk2⟩
        · simp only [if_neg hcase]
          exact hbound orig horig
  | delete task_id =>
    simp only [stepOp]
    obtain ⟨hsub, hnid⟩ := delete_task_tasks s task_id
    constructor
    · exact ((hsub.map (fun t => t.id)).nodup) hnd
    · intro t ht
      obtain ⟨k, hk1, hk2⟩ := hbound t (hsub.subset ht)
      exact ⟨k, hk1, by rw [hnid]; exact hk2⟩

theorem execOps_idsOk (parse : String → Option Nat) :
    ∀ (ops : List Op) (s : TaskStorage),
      IdsOk s → IdsOk (execOps parse s ops)
  | [], _, h => h
  | op :: ops, s, h =>
    execOps_idsOk parse ops _ (stepOp_idsOk parse s op h)

theorem applyUpdates_empty (parse : String → Option Nat) (now : Nat)
    (task : Task) : applyUpdates parse now task {} = some task := rfl

/-- C8: on any reachable store, an update with an empty patch succeeds,
returns the task with every field unchanged (including
`completed_at`), and leaves the store unchanged. -/
theorem C8_empty_patch (parse : String → Option Nat) (now : Nat)
    (ops : List Op) (task_id : String) (task : Task)
    (h : (execOps parse TaskStorage.init ops).get_task task_id = some task) :
    (execOps parse TaskStorage.init ops).update_task parse now task_id {} =
      UpdateResult.ok task (execOps parse TaskStorage.init ops) := by
  have hids : IdsOk (execOps parse TaskStorage.init ops) :=
    execOps_idsOk parse ops TaskStorage.init
      ⟨List.nodup_nil, by intro t ht; cases ht⟩
  obtain ⟨hnd, _⟩ := hids
  have happ : applyUpdates parse now task {} = some task :=
    applyUpdates_empty parse now task
  simp only [TaskStorage.update_task, h, happ]
  have hmap :
      (execOps parse TaskStorage.init ops).tasks.map
          (fun t => if t.id == task_id then task else t) =
        (execOps parse TaskStorage.init ops).tasks := by
    have hfid : (task.id == task_id) = true :=
      (get_task_some (execOps parse TaskStorage.init ops) task_id task h).1
    have htaskmem :=
      (get_task_some (execOps parse TaskStorage.init ops) task_id task h).2
    conv_rhs => rw [← List.map_id ((execOps parse TaskStorage.init ops).tasks)]
    apply List.map_congr_left
    intro t ht
    by_cases hcase : (t.id == task_id) = true
    · simp only [if_pos hcase, id]
      have hteq : t.id = task.id := by
        rw [eq_of_beq hcase, eq_of_beq hfid]
      exact (List.inj_on_of_nodup_map hnd ht htaskmem hteq).symm
    · simp only [if_neg hcase, id]
  rw [hmap]

def c8ops : List Op := [Op.create 0 { title := "a" }]

def c8task : Task :=
  { id := "1", title := "a", description := none, status := TaskStatus.todo
    priority := Priority.medium, created_at := 0, due_date := DueDate.unset
    completed_at := none, tags := [] }

/-- Witness for C8 at a concrete one-task store. -/
theorem C8_empty_patch_witness :
    (execOps noParse TaskStorage.init c8ops).update_task noParse 9 "1" {} =
      UpdateResult.ok c8task (execOps noParse TaskStorage.init c8ops) :=
  C8_empty_patch noParse 9 c8ops "1" c8task (by decide)

/-! ### The list_tasks tool's status validation -/

/-- C9 counterexample: the empty status string does not name any known
status value, yet the tool answers with a success envelope rather than
the "Invalid status" error — the falsy string skips the enum lookup
and the filter entirely. -/
theorem C9_counterexample :
    listTasksTool TaskStorage.init (some "") none = ListResult.ok [] 0 ∧
      TaskStatus.fromValue "" = none :=
  ⟨by decide, by decide⟩

/-- C9 (amended): for every nonempty status string that does not name a
known status value, the tool returns the error envelope
`"Invalid status: " ++ status` (and no task list). -/
theorem C9_invalid_status (s : TaskStorage) (st : String)
    (tag : Option String) (h1 : st ≠ "")
    (h2 : TaskStatus.fromValue st = none) :
    listTasksTool s (some st) tag =
      ListResult.err ("Invalid status: " ++ st) := by
  unfold listTasksTool
  simp [h1, h2]

/-- Witness for C9 (amended) at the status string "bogus". -/
theorem C9_invalid_status_witness :
    listTasksTool TaskStorage.init (some "bogus") none =
      ListResult.err ("Invalid status: " ++ "bogus") :=
  C9_invalid_status TaskStorage.init "bogus" none (by decide) (by decide)

/-! ### Failed creates burn an id -/

/-- C10: a create whose due_date string is truthy but unparseable
returns no task and leaves the task collection unchanged, yet the id
counter has already been incremented, so the next successful create
assigns the id rendered from `next_id + 1` — skipping the value the
failed create consumed. -/
theorem C10_failed_create_skips_id (parse : String → Option Nat)
    (now : Nat) (s : TaskStorage) (request : CreateTaskRequest)
    (ds : String) (h1 : request.due_date = some ds) (h2 : ds ≠ "")
    (h3 : parseDue parse ds = none) :
    s.create_task parse now request =
      (none, { s with next_id := s.next_id + 1 }) ∧
    (∀ (now2 : Nat) (request2 : CreateTaskRequest) (t : Task)
        (s2 : TaskStorage),
      TaskStorage.create_task parse now2 { s with next_id := s.next_id + 1 }
          request2 = (some t, s2) →
      t.id = toString (s.next_id + 1)) := by
  constructor
  · simp only [TaskStorage.create_task, h1, if_neg h2, h3]
    rfl
  · intro now2 request2 t s2 hc
    exact (create_task_some parse now2 _ request2 t s2 hc).1

def c10req : CreateTaskRequest := { title := "a", due_date := some "nope" }

/-- Witness for C10: the failed create leaves the store's task list
empty while bumping the counter from 1 to 2. -/
theorem C10_failed_create_skips_id_witness :
    TaskStorage.init.create_task noParse 0 c10req =
      (none, { TaskStorage.init with
                next_id := TaskStorage.init.next_id + 1 }) :=
  (C10_failed_create_skips_id noParse 0 TaskStorage.init c10req "nope" rfl
    (by decide) (by decide)).1

end TaskSrv
